import Mathlib

/-!
Verification of the calendar month-grid event layout engine
(src/static/js/calendar.js) against its specification.

Shallow embedding conventions:

* A JavaScript `Date` holds an instant; the engine only ever reads its local
  wall-clock components (getFullYear/getMonth/getDate/getHours/...). We embed a
  valid `Date` as `JsDateTime`: the local civil day expressed as a day number
  (days since 1970-01-01) together with local time-of-day fields. Daylight
  saving shifts are not modelled: local time is treated as a uniform timeline,
  so subtracting two midnight-normalised dates yields an exact multiple of
  86400000 ms, which is what the duration computation in the source divides by.
* `new Date(y, m, d)` and `Date.prototype.setDate` normalise their arguments
  through ECMA-262 MakeDay; `mkDay` below is that function (month overflow
  moves the year, negative values roll back). `getDay()` is ECMA WeekDay:
  `(day + 4) mod 7` with a non-negative remainder. ECMA floor-divisions by the
  positive constants 4, 100, 400, 12, 7 coincide with Int `/` (Euclidean
  division), which Lean uses for `/` and `%` on `Int`.
* An invalid `Date` (time value NaN) is embedded as `none : Option JsDateTime`.
  Per ECMA-262 the `Date` constructor applied to an unparseable string returns
  an invalid Date and does not throw, so the `catch` branch of `parseEventDate`
  is unreachable for string input; the constructor argument is embedded as
  `RawDate`: `missing` (null/empty, i.e. falsy), `invalid` (non-empty but
  unparseable) or `valid t`.
* `getDateKey` formats a date as Y-MM-DD with zero-padded two-digit month and
  day; on valid dates this string is injective in the civil day, so date keys
  are embedded as the civil day number (`Option Int`, `none` for the
  NaN-NaN-NaN key of an invalid date, which matches no grid key).
* JS `Map` keyed by date strings becomes an association list whose keys are
  day numbers; `Map.set` during grid initialisation keeps one entry per
  distinct key, in first-insertion order.
* `Array.prototype.sort` with the start-date comparator: per ES2019+ the sort
  is stable and a NaN comparator result is coerced to +0. For events whose
  start dates all parse, the comparator is consistent and the stable sort
  result is unique; we compute it with a stable insertion sort. (When invalid
  dates make the comparator inconsistent the JS result is
  implementation-defined; the insertion sort is one deterministic choice.)
* Pixel measurements in the resize-observer callback are JS floats; they are
  embedded as rationals, `Math.floor` as the rational floor.
-/

/-! ### ECMA-262 date arithmetic (MakeDay / WeekDay) -/

/-- ECMA DaysInYear: 366 exactly for Gregorian leap years. -/
def daysInYear (y : Int) : Int :=
  if y % 4 ≠ 0 then 365
  else if y % 100 ≠ 0 then 366
  else if y % 400 ≠ 0 then 365
  else 366

/-- ECMA DayFromYear: day number of 1 January of year `y` (1970-01-01 = 0). -/
def dayFromYear (y : Int) : Int :=
  365 * (y - 1970) + (y - 1969) / 4 - (y - 1901) / 100 + (y - 1601) / 400

/-- Days in 0-based month `m` of a year with the given leap flag. -/
def daysInMonthTbl (leap : Bool) (m : Int) : Int :=
  if m = 1 then (if leap then 29 else 28)
  else if m = 3 ∨ m = 5 ∨ m = 8 ∨ m = 10 then 30
  else 31

/-- Days before 0-based month `m` within its year (ECMA DayWithinYear table). -/
def monthOffsetTbl (leap : Bool) (m : Int) : Int :=
  let l : Int := if leap then 1 else 0
  if m = 0 then 0
  else if m = 1 then 31
  else if m = 2 then 59 + l
  else if m = 3 then 90 + l
  else if m = 4 then 120 + l
  else if m = 5 then 151 + l
  else if m = 6 then 181 + l
  else if m = 7 then 212 + l
  else if m = 8 then 243 + l
  else if m = 9 then 273 + l
  else if m = 10 then 304 + l
  else 334 + l

/-- ECMA MakeDay: day number of `new Date(y, m, d)` at local midnight.
Month overflow/underflow rolls the year; `d` may be any integer. -/
def mkDay (y m d : Int) : Int :=
  let yn : Int := y + m / 12
  let mn : Int := m % 12
  dayFromYear yn + monthOffsetTbl (daysInYear yn = 366) mn + (d - 1)

/-- ECMA WeekDay of a day number: 0 = Sunday .. 6 = Saturday (1970-01-01 was a
Thursday, weekday 4). This is what `Date.prototype.getDay` returns. -/
def jsGetDay (day : Int) : Int := (day + 4) % 7

/-! ### calendar.js helpers: getFirstDayOfMonth, getDaysInMonth -/

/-- `getFirstDayOfMonth(year, month)`: weekday of day 1 converted to a
Monday-first index (Sunday 0 becomes 6, otherwise the JS weekday minus 1). -/
def getFirstDayOfMonth (y m : Int) : Int :=
  let day := jsGetDay (mkDay y m 1)
  if day = 0 then 6 else day - 1

/-- `getDaysInMonth(year, month)` = `new Date(year, month + 1, 0).getDate()`:
the date-of-month of the day before the first of the next month, i.e. the
length of the (normalised) month. -/
def getDaysInMonth (y m : Int) : Int :=
  let yn : Int := y + m / 12
  let mn : Int := m % 12
  daysInMonthTbl (daysInYear yn = 366) mn

/-! ### Grid builder (renderCalendar lines 575-599) -/

/-- Previous month trailing days: the loop
`for (i = firstDay - 1; i >= 0; i--) push(new Date(y, m - 1, daysInPrevMonth - i))`
pushes days `daysInPrevMonth - firstDay + 1 .. daysInPrevMonth` in order. -/
def gridPrevChunk (y m : Int) : List Int :=
  let firstDay := getFirstDayOfMonth y m
  let daysInPrevMonth := getDaysInMonth y (m - 1)
  (List.range firstDay.toNat).map
    (fun (i : Nat) => mkDay y (m - 1) (daysInPrevMonth - (firstDay - 1) + (i : Int)))

/-- Current month days 1..daysInMonth. -/
def gridMonthChunk (y m : Int) : List Int :=
  (List.range (getDaysInMonth y m).toNat).map
    (fun (d : Nat) => mkDay y m ((d : Int) + 1))

/-- `remainingCells`: pad count so the total is a multiple of 7. -/
def gridRemaining (y m : Int) : Nat :=
  let totalCells := (getFirstDayOfMonth y m).toNat + (getDaysInMonth y m).toNat
  if totalCells % 7 = 0 then 0 else 7 - totalCells % 7

/-- Next month leading days 1..remainingCells. -/
def gridNextChunk (y m : Int) : List Int :=
  (List.range (gridRemaining y m)).map
    (fun (d : Nat) => mkDay y (m + 1) ((d : Int) + 1))

/-- The ordered day-number sequence of the month grid built by
`renderCalendar`. -/
def buildGridDates (y m : Int) : List Int :=
  gridPrevChunk y m ++ gridMonthChunk y m ++ gridNextChunk y m

/-! ### Event model and classification -/

/-- Local wall-clock instant of a valid JS `Date`: civil day number plus local
time-of-day fields. -/
structure JsDateTime where
  day : Int
  hour : Int
  minute : Int
  second : Int
  ms : Int
deriving DecidableEq

/-- Milliseconds-since-epoch time value of a valid date on the uniform local
timeline; `Date` subtraction is the difference of these. -/
def msVal (t : JsDateTime) : Int :=
  t.day * 86400000 + t.hour * 3600000 + t.minute * 60000 + t.second * 1000 + t.ms

/-- The raw `start` / `end` field of an event as handed to `parseEventDate`:
falsy (null or empty), a non-empty string that does not parse, or a string
parsing to the given local instant. -/
inductive RawDate where
  | missing : RawDate
  | invalid : RawDate
  | valid : JsDateTime → RawDate
deriving DecidableEq

/-- A calendar event as consumed by the layout engine. -/
structure Event where
  start : RawDate
  end_ : RawDate
  all_day : Bool
deriving DecidableEq

/-- `parseEventDate(isoString)`: falsy input yields `new Date()` (the current
instant `now`); an unparseable non-empty string yields an invalid Date (the
ECMA `Date` constructor does not throw on strings, so the catch branch never
runs); otherwise the parsed instant. -/
def parseEventDate (s : RawDate) (now : JsDateTime) : Option JsDateTime :=
  match s with
  | RawDate.missing => some now
  | RawDate.invalid => none
  | RawDate.valid t => some t

/-- `getDateKey(date)` embedded as the civil day number (the Y-MM-DD string
is injective in it); the key of an invalid date ("NaN-NaN-NaN") is `none` and
matches no grid key. -/
def getDateKeyO (d : Option JsDateTime) : Option Int :=
  d.map (fun t => t.day)

/-- `getEventDurationDays(event)`: both dates are normalised to local midnight
(day numbers), their ms difference floored by 86400000 is exactly the day
difference; all-day events with a positive difference use it as-is (exclusive
end), everything else is clamped to at least 1. An invalid date makes every
intermediate NaN: `NaN > 0` is false and `Math.max(1, NaN)` is NaN, so the
result is NaN, embedded as `none`. -/
def getEventDurationDays (e : Event) (now : JsDateTime) : Option Int :=
  match parseEventDate e.start now, parseEventDate e.end_ now with
  | some s, some en =>
    let diffDays := en.day - s.day
    if e.all_day && decide (0 < diffDays) then some diffDays
    else some (max 1 diffDays)
  | _, _ => none

/-- `isMultiDayEvent(event)` = `getEventDurationDays(event) > 1`
(`NaN > 1` is false). -/
def isMultiDayEvent (e : Event) (now : JsDateTime) : Bool :=
  match getEventDurationDays e now with
  | some d => decide (1 < d)
  | none => false

/-! ### organizeEventsForGrid (calendar.js lines 194-385) -/

/-- `dateToIndex` lookup: the map is filled by `set(getDateKey(date), index)`
over the grid in order, so a repeated key keeps the last index. -/
def lastIdxOf : List Int → Int → Option Nat
  | [], _ => none
  | x :: xs, d =>
    match lastIdxOf xs d with
    | some i => some (i + 1)
    | none => if x = d then some 0 else none

/-- `dateToIndex.get(key)`; the NaN key (`none`) matches nothing. -/
def dateToIndexGet (gridDates : List Int) : Option Int → Option Nat
  | none => none
  | some d => lastIdxOf gridDates d

/-- Lines 230-237: a timed event ending exactly at local midnight (hours,
minutes and seconds all zero) has its end date moved back one day via
`setDate(getDate() - 1)`; all-day events and invalid dates are untouched
(on an invalid date `getHours()` is NaN and `NaN === 0` is false). -/
def adjustEnd (allDay : Bool) : Option JsDateTime → Option JsDateTime
  | none => none
  | some t =>
    if !allDay && decide (t.hour = 0) && decide (t.minute = 0) && decide (t.second = 0)
    then some { t with day := t.day - 1 }
    else some t

/-- Integer range `a..b` inclusive (empty when `b < a`), as a JS
`for (c = a; c <= b; c++)` loop produces. -/
def intRangeIncl (a b : Int) : List Int :=
  (List.range (b + 1 - a).toNat).map (fun (i : Nat) => a + (i : Int))

/-- Nat range `a..b` inclusive (empty when `b < a`). -/
def natRangeIncl (a b : Nat) : List Nat :=
  (List.range (b + 1 - a)).map (fun i => a + i)

/-- Column where the event starts in week `w` (lines 257-262 and 331-337). -/
def weekColStart (firstWeekIndex : Nat) (startIndex : Option Nat) (w : Nat) : Int :=
  match startIndex with
  | some si => if w = firstWeekIndex then ((si % 7 : Nat) : Int) else 0
  | none => 0

/-- Last occupied column of the event in week `w` (lines 264-278): on the last
week the end column is exclusive for all-day events (one past the last day),
inclusive for timed events; otherwise the week runs to column 6. -/
def weekColEnd (allDay : Bool) (lastWeekIndex : Nat) (endIndex : Option Nat) (w : Nat) : Int :=
  match endIndex with
  | some ei =>
    if w = lastWeekIndex then
      let endCol : Int := ((ei % 7 : Nat) : Int)
      if allDay then endCol - 1 else endCol
    else 6
  | none => 6

/-- Segment span in week `w` (lines 340-353). -/
def weekSpan (allDay : Bool) (lastWeekIndex : Nat) (endIndex : Option Nat)
    (w : Nat) (colStart : Int) : Int :=
  match endIndex with
  | some ei =>
    if w = lastWeekIndex then
      let endCol : Int := ((ei % 7 : Nat) : Int)
      if allDay then endCol - colStart else endCol - colStart + 1
    else 7 - colStart
  | none => 7 - colStart

/-- Lines 254-287: all grid-cell indices the event occupies, week by week
(a week contributes nothing when its column range is empty). -/
def occupiedCellsCore (allDay : Bool) (fw lw : Nat)
    (startIndex endIndex : Option Nat) : List Int :=
  (natRangeIncl fw lw).flatMap (fun w =>
    let colStart := weekColStart fw startIndex w
    let colEnd := weekColEnd allDay lw endIndex w
    if colStart ≤ colEnd
    then (intRangeIncl colStart colEnd).map (fun c => (w : Int) * 7 + c)
    else [])

/-- Everything the multi-day branch derives from an event before lane
assignment: grid indices of its (adjusted) start and end keys, first and last
touched week, and the occupied cell set. -/
structure EventPlacement where
  startIndex : Option Nat
  endIndex : Option Nat
  fw : Nat
  lw : Nat
  cells : List Int

/-- Lines 223-252 and 254-287 for one event. When an index is missing the
week range defaults to the full grid (`firstWeekIndex = 0`,
`lastWeekIndex = floor((gridDates.length - 1) / 7)`). -/
def placeEvent (gridDates : List Int) (now : JsDateTime) (e : Event) : EventPlacement :=
  let startDate := parseEventDate e.start now
  let endDate := adjustEnd e.all_day (parseEventDate e.end_ now)
  let startIndex := dateToIndexGet gridDates (getDateKeyO startDate)
  let endIndex := dateToIndexGet gridDates (getDateKeyO endDate)
  let fw : Nat := match startIndex with | some si => si / 7 | none => 0
  let lw : Nat := match endIndex with
    | some ei => ei / 7
    | none => (gridDates.length - 1) / 7
  { startIndex := startIndex, endIndex := endIndex, fw := fw, lw := lw,
    cells := occupiedCellsCore e.all_day fw lw startIndex endIndex }

/-- The full occupied-cell set of an event, as the lane assigner sees it. -/
def occCellsOfEvent (gridDates : List Int) (now : JsDateTime) (e : Event) : List Int :=
  (placeEvent gridDates now e).cells

/-- Lines 292-313: scan occupancy rows from 0 upward and return the first row
in which every needed cell is free (`row[cellIndex]` falsy). -/
def findRow : List (List Int) → List Int → Option Nat
  | [], _ => none
  | row :: rest, cells =>
    if cells.all (fun c => !(decide (c ∈ row))) then some 0
    else (findRow rest cells).map (fun i => i + 1)

/-- Modelled from the spec words of the Lane Assigner, for comparison with
`findRow`: the first (lowest) lane index whose already-claimed cell set is
disjoint from the event cells. -/
def specFirstFreeLane (occ : List (List Int)) (cells : List Int) : Option Nat :=
  (List.range occ.length).find?
    (fun r => cells.all (fun c => !(decide (c ∈ occ.getD r []))))

/-- One rendered segment of a multi-day event (one per touched week),
lines 364-372. -/
structure Seg where
  ev : Event
  gridColumn : Int
  gridRow : Nat
  span : Int
  eventRow : Nat
  showLeftArrow : Bool
  showRightArrow : Bool
deriving DecidableEq

/-- Lines 329-373: one spanning element per touched week; segments with
non-positive span are skipped. -/
def buildSegs (e : Event) (p : EventPlacement) (eventRow : Nat) : List Seg :=
  (natRangeIncl p.fw p.lw).filterMap (fun w =>
    let colStart := weekColStart p.fw p.startIndex w
    let span := weekSpan e.all_day p.lw p.endIndex w colStart
    if span ≤ 0 then none
    else some { ev := e, gridColumn := colStart, gridRow := w, span := span,
                eventRow := eventRow,
                showLeftArrow := (decide (w = p.fw) && p.startIndex.isNone)
                  || decide (p.fw < w),
                showRightArrow := (decide (w = p.lw) && p.endIndex.isNone)
                  || decide (w < p.lw) })

/-- Mutable state of the `sortedEvents.forEach` loop: the per-date single-day
buckets, the growing segment list, and `globalRowOccupancy` (each row as the
set of claimed cell indices; a boolean array read out of range is falsy, so a
plain set models it, including writes past `gridDates.length`). -/
structure OrgState where
  single : List (Int × List Event)
  multi : List Seg
  occ : List (List Int)

/-- Line 325: mark all occupied cells in the chosen row. -/
def markRow (occ : List (List Int)) (r : Nat) (cells : List Int) : List (List Int) :=
  occ.set r (cells ++ occ.getD r [])

/-- Occupancy row `r` (missing rows read as empty). -/
def getRow (occ : List (List Int)) (r : Nat) : List Int := occ.getD r []

/-- Lines 377-380: append the event to its date bucket when the bucket
exists (`singleDayEvents.has(dateKey)`); otherwise drop it. -/
def bucketPush (single : List (Int × List Event)) (k : Option Int) (e : Event) :
    List (Int × List Event) :=
  match k with
  | none => single
  | some key =>
    if single.any (fun p => p.1 = key) then
      single.map (fun p => if p.1 = key then (p.1, p.2 ++ [e]) else p)
    else single

/-- Lines 199-202: `singleDayEvents.set(getDateKey(date), [])` over the grid;
a JS Map keeps one entry per distinct key in first-insertion order. -/
def initOrgState (gridDates : List Int) : OrgState :=
  { single := gridDates.foldl
      (fun acc d => if acc.any (fun p => p.1 = d) then acc else acc ++ [(d, [])]) [],
    multi := [], occ := [] }

/-- The body of the `sortedEvents.forEach` loop (lines 222-382). -/
def processEvent (gridDates : List Int) (now : JsDateTime) (st : OrgState) (e : Event) :
    OrgState :=
  if isMultiDayEvent e now || e.all_day then
    let p := placeEvent gridDates now e
    if p.startIndex.isSome || (p.endIndex.isSome && p.startIndex.isNone) then
      match findRow st.occ p.cells with
      | some r =>
        { st with occ := markRow st.occ r p.cells,
                  multi := st.multi ++ buildSegs e p r }
      | none =>
        { st with occ := markRow (st.occ ++ [[]]) st.occ.length p.cells,
                  multi := st.multi ++ buildSegs e p st.occ.length }
    else st
  else
    { st with single := bucketPush st.single (getDateKeyO (parseEventDate e.start now)) e }

/-- The sort comparator (lines 216-220): difference of the parsed start
instants; per ES2023 SortCompare a NaN comparator value is treated as +0. -/
def startCmp (now : JsDateTime) (a b : Event) : Int :=
  match parseEventDate a.start now, parseEventDate b.start now with
  | some x, some y => msVal x - msVal y
  | _, _ => 0

/-- Stable insertion into a sorted prefix: the new element goes after every
element it does not strictly precede. -/
def insertByStart (now : JsDateTime) (a : Event) : List Event → List Event
  | [] => [a]
  | b :: bs =>
    if startCmp now a b < 0 then a :: b :: bs else b :: insertByStart now a bs

/-- `[...events].sort(comparator)`: the stable ascending sort by parsed start
date, computed by stable insertion. -/
def sortEventsByStart (events : List Event) (now : JsDateTime) : List Event :=
  events.foldl (fun acc e => insertByStart now e acc) []

/-- `organizeEventsForGrid(events, gridDates)`, with the current instant `now`
supplied for the `new Date()` fallbacks. -/
def organizeEventsForGrid (events : List Event) (gridDates : List Int)
    (now : JsDateTime) : OrgState :=
  (sortEventsByStart events now).foldl (processEvent gridDates now)
    (initOrgState gridDates)

/-! ### calculateDisplayRows (lines 142-186) and createSpanningEvent
(lines 431-479) -/

/-- Insert into an ascending duplicate-free list, keeping it so. -/
def insertSortedDistinct (r : Nat) : List Nat → List Nat
  | [] => [r]
  | b :: bs =>
    if r < b then r :: b :: bs
    else if r = b then b :: bs
    else b :: insertSortedDistinct r bs

/-- `[...new Set(rows)].sort((a, b) => a - b)`: the ascending list of distinct
values (set insertion order is irrelevant after the numeric sort). -/
def sortedDistinct (l : List Nat) : List Nat :=
  l.foldl (fun acc r => insertSortedDistinct r acc) []

/-- Index of `r` in a list (the position the `eventRowToDisplayRow` map
assigns); behaviour on absent values is irrelevant, lookups come from the
list itself. -/
def idxOfN : List Nat → Nat → Nat
  | [], _ => 0
  | b :: bs, r => if b = r then 0 else idxOfN bs r + 1

/-- Per-week compacted display row of a segment: position of its global
`eventRow` among the ascending distinct `eventRow`s used in its week
(lines 160-168). -/
def displayRowOf (multi : List Seg) (s : Seg) : Nat :=
  idxOfN
    (sortedDistinct ((multi.filter (fun t => t.gridRow = s.gridRow)).map
      (fun t => t.eventRow)))
    s.eventRow

/-- The cell indices a single segment covers
(`gridRow * 7 + col` for `col = gridColumn .. gridColumn + span - 1`). -/
def segCells (s : Seg) : List Int :=
  (intRangeIncl s.gridColumn (s.gridColumn + s.span - 1)).map
    (fun c => (s.gridRow : Int) * 7 + c)

/-- `calculateDisplayRows` read at one cell: the imperative loop writes
`max(current, displayRow + 1)` for every segment covering the cell (skipping
cell indices past the grid), starting from 0; max-accumulation is
order-independent, so the final Map value is this fold. -/
def cellDisplayRowCount (multi : List Seg) (gridLen : Nat) (cell : Nat) : Nat :=
  if cell < gridLen then
    (multi.filter (fun s => decide ((cell : Int) ∈ segCells s))).foldl
      (fun acc s => max acc (displayRowOf multi s + 1)) 0
  else 0

/-- The style data `createSpanningEvent` writes on the element: percentage
left/width (the constant ±2px trim is omitted), pixel top, z-index, and the
arrow classes. `dayNumberOffsetPx = 26`, `eventRowHeightPx = 22`,
`zIndex = 100 - eventRow`. -/
structure SpanStyle where
  leftPct : Rat
  widthPct : Rat
  topPx : Rat
  zIndex : Int
  hasLeftArrow : Bool
  hasRightArrow : Bool
deriving DecidableEq

/-- `createSpanningEvent(event, cellWidth, cellHeightPx)` positional output
(lines 436-454): note the top offset multiplies the GLOBAL `eventRow`. -/
def createSpanningEvent (s : Seg) (cellWidth cellHeightPx : Rat) : SpanStyle :=
  { leftPct := (s.gridColumn : Rat) * cellWidth,
    widthPct := (s.span : Rat) * cellWidth,
    topPx := (s.gridRow : Rat) * cellHeightPx + 26 + (s.eventRow : Rat) * 22,
    zIndex := 100 - (s.eventRow : Int),
    hasLeftArrow := s.showLeftArrow,
    hasRightArrow := s.showRightArrow }

/-! ### Overflow resolver (ResizeObserver callback, lines 726-851)

Per cell: `S` = `cellDisplayRowCount` there (spanning display rows), `T` =
number of single-day timed events bucketed to the cell, `h` =
`availableHeight` = cell height minus the 26px day number. Constants from the
source: `moreIndicatorHeightPx = 18`, `eventRowHeightPx = 22`,
`timedEventHeightPx = 18`. -/

/-- First pass (lines 752-776): the per-cell limit of visible spanning rows.
If everything fits, all of them; otherwise reserve the indicator (and one
timed slot when any timed events exist) and fit as many 22px lanes as remain,
but never fewer than one. -/
def maxVisibleSpanning (S T : Nat) (h : Rat) : Int :=
  if (S : Rat) * 22 + (T : Rat) * 18 ≤ h then (S : Int)
  else
    min (S : Int)
      (max 1 ⌊(h - 18 - (if 0 < T then (18 : Rat) else 0)) / 22⌋)

/-- Third pass (lines 808-813): visible timed events from the space left
after the shown lanes and, when lanes are hidden, the indicator. -/
def visibleTimed (S T : Nat) (h : Rat) : Int :=
  let mvs := maxVisibleSpanning S T h
  let remainingHeight := h - (mvs : Rat) * 22
    - (if mvs < (S : Int) then (18 : Rat) else 0)
  min (T : Int) (max 0 ⌊remainingHeight / 18⌋)

/-- Items shown in a cell: visible lanes plus visible timed markers. -/
def shownCount (S T : Nat) (h : Rat) : Int :=
  maxVisibleSpanning S T h + visibleTimed S T h

/-- Lines 816-818: `hiddenSpanning + hiddenTimed`. -/
def hiddenCount (S T : Nat) (h : Rat) : Int :=
  max 0 ((S : Int) - maxVisibleSpanning S T h)
    + max 0 ((T : Int) - visibleTimed S T h)

/-- Lines 839-847: the "+X more" indicator is displayed iff something is
hidden. -/
def moreShown (S T : Nat) (h : Rat) : Bool :=
  decide (0 < hiddenCount S T h)

/-! ### Concrete examples used by counterexamples and witnesses -/

/-- A one-week grid over day numbers 0..6. -/
def exGrid7 : List Int := [0, 1, 2, 3, 4, 5, 6]

/-- A fixed current instant for the `new Date()` fallbacks. -/
def exNow : JsDateTime := ⟨0, 0, 0, 0, 0⟩

/-- All-day event occupying days 0..2 (exclusive end on day 3). -/
def exEvA : Event := ⟨RawDate.valid ⟨0, 0, 0, 0, 0⟩, RawDate.valid ⟨3, 0, 0, 0, 0⟩, true⟩

/-- All-day event occupying days 2..4 (exclusive end on day 5). -/
def exEvB : Event := ⟨RawDate.valid ⟨2, 0, 0, 0, 0⟩, RawDate.valid ⟨5, 0, 0, 0, 0⟩, true⟩

/-- The month grid of January 2026 (35 cells, 2025-12-29 .. 2026-02-01). -/
def exGridJan : List Int := buildGridDates 2026 0

/-- All-day event from 2025-12-01 to 2026-03-01: its interval strictly covers
the whole January 2026 grid, while both its start and its end date lie
outside the grid. -/
def exCoverEvent : Event :=
  ⟨RawDate.valid ⟨mkDay 2025 11 1, 0, 0, 0, 0⟩,
   RawDate.valid ⟨mkDay 2026 2 1, 0, 0, 0, 0⟩, true⟩

/-- Timed event whose start date is non-empty but unparseable. -/
def exBadEvent : Event := ⟨RawDate.invalid, RawDate.valid ⟨5, 0, 0, 0, 0⟩, false⟩

/-- Single-day timed event on day 100, far outside `exGrid7`. -/
def exFarEvent : Event := ⟨RawDate.valid ⟨100, 12, 0, 0, 0⟩, RawDate.valid ⟨100, 13, 0, 0, 0⟩, false⟩

/-- A segment in grid row 0 on global lane 0 (columns 0..2). -/
def exSegL0 : Seg := ⟨exEvA, 0, 0, 3, 0, false, false⟩

/-- A segment in grid row 0 on global lane 3 (columns 3..5); together with
`exSegL0` its row uses exactly the global lanes 0 and 3. -/
def exSegL3 : Seg := ⟨exEvB, 3, 0, 3, 3, false, false⟩

/-! ### Lemmas and claim theorems -/

theorem getFirstDayOfMonth_bounds (y m : Int) :
    0 ≤ getFirstDayOfMonth y m ∧ getFirstDayOfMonth y m < 7 := by
  unfold getFirstDayOfMonth jsGetDay
  dsimp only
  have h1 : 0 ≤ (mkDay y m 1 + 4) % 7 := Int.emod_nonneg _ (by norm_num)
  have h2 : (mkDay y m 1 + 4) % 7 < 7 := Int.emod_lt_of_pos _ (by norm_num)
  split <;> omega

theorem getDaysInMonth_ge (y m : Int) : 28 ≤ getDaysInMonth y m := by
  unfold getDaysInMonth daysInMonthTbl
  dsimp only
  split
  · split <;> omega
  · split <;> omega

theorem gridPrevChunk_length (y m : Int) :
    (gridPrevChunk y m).length = (getFirstDayOfMonth y m).toNat := by
  unfold gridPrevChunk
  dsimp only
  rw [List.length_map, List.length_range]

theorem gridMonthChunk_length (y m : Int) :
    (gridMonthChunk y m).length = (getDaysInMonth y m).toNat := by
  unfold gridMonthChunk
  rw [List.length_map, List.length_range]

theorem gridNextChunk_length (y m : Int) :
    (gridNextChunk y m).length = gridRemaining y m := by
  unfold gridNextChunk
  rw [List.length_map, List.length_range]

theorem buildGridDates_length (y m : Int) :
    (buildGridDates y m).length
      = (getFirstDayOfMonth y m).toNat + (getDaysInMonth y m).toNat
        + gridRemaining y m := by
  unfold buildGridDates
  rw [List.length_append, List.length_append, gridPrevChunk_length,
    gridMonthChunk_length, gridNextChunk_length]

/-- Claim C6: for every year/month pair (month rollover included) the grid
builder succeeds and its output is the previous-month trailing chunk of
length `firstWeekday` (the Monday-first index of the weekday of day 1),
followed by days 1..N of the target month as a contiguous infix, padded with
leading days of the next month to a multiple of 7. -/
theorem grid_builder_month_shape (y m : Int) :
    buildGridDates y m
      = gridPrevChunk y m ++ gridMonthChunk y m ++ gridNextChunk y m
    ∧ (buildGridDates y m).length % 7 = 0
    ∧ (gridPrevChunk y m).length = (getFirstDayOfMonth y m).toNat
    ∧ 0 ≤ getFirstDayOfMonth y m ∧ getFirstDayOfMonth y m < 7
    ∧ 28 ≤ getDaysInMonth y m
    ∧ gridMonthChunk y m
        = (List.range (getDaysInMonth y m).toNat).map
            (fun (d : Nat) => mkDay y m ((d : Int) + 1))
    ∧ gridMonthChunk y m <:+: buildGridDates y m
    ∧ gridPrevChunk y m
        = (List.range (getFirstDayOfMonth y m).toNat).map
            (fun (i : Nat) => mkDay y (m - 1)
              (getDaysInMonth y (m - 1) - (getFirstDayOfMonth y m - 1) + (i : Int)))
    ∧ gridNextChunk y m
        = (List.range (gridRemaining y m)).map
            (fun (d : Nat) => mkDay y (m + 1) ((d : Int) + 1)) := by
  obtain ⟨hb1, hb2⟩ := getFirstDayOfMonth_bounds y m
  refine ⟨rfl, ?_, gridPrevChunk_length y m, hb1, hb2, getDaysInMonth_ge y m, rfl,
    ⟨gridPrevChunk y m, gridNextChunk y m, ?_⟩, rfl, rfl⟩
  · rw [buildGridDates_length]
    unfold gridRemaining
    dsimp only
    split <;> omega
  · unfold buildGridDates
    rw [List.append_assoc]

/-- Claim C5: a timed (non-all-day) event ending exactly at local midnight
(hours, minutes, seconds all zero) has its effective end date moved to the
previous calendar day, so its end key is the previous day; the adjustment is
never applied to all-day events. -/
theorem timed_midnight_end_previous_day (t : JsDateTime)
    (hh : t.hour = 0) (hm : t.minute = 0) (hs : t.second = 0) :
    adjustEnd false (some t) = some { t with day := t.day - 1 }
    ∧ getDateKeyO (adjustEnd false (some t)) = some (t.day - 1)
    ∧ ∀ d : Option JsDateTime, adjustEnd true d = d := by
  refine ⟨?_, ?_, ?_⟩
  · simp [adjustEnd, hh, hm, hs]
  · simp [adjustEnd, hh, hm, hs, getDateKeyO]
  · intro d
    cases d <;> simp [adjustEnd]

theorem timed_midnight_end_previous_day_witness :
    adjustEnd false (some ⟨42, 0, 0, 0, 0⟩) = some ⟨41, 0, 0, 0, 0⟩
    ∧ getDateKeyO (adjustEnd false (some ⟨42, 0, 0, 0, 0⟩)) = some 41
    ∧ ∀ d : Option JsDateTime, adjustEnd true d = d := by
  have h := timed_midnight_end_previous_day ⟨42, 0, 0, 0, 0⟩ rfl rfl rfl
  exact ⟨h.1, h.2.1, h.2.2⟩

/-- Claim C8: for events whose two dates parse and whose end instant lies
before the start instant, classification is total and the emitted duration is
clamped to at least one day. -/
theorem duration_clamped_at_least_one (e : Event) (now : JsDateTime)
    (ts te : JsDateTime)
    (hs : parseEventDate e.start now = some ts)
    (he : parseEventDate e.end_ now = some te)
    (hlt : msVal te < msVal ts) :
    ∃ d : Int, getEventDurationDays e now = some d ∧ 1 ≤ d := by
  unfold getEventDurationDays
  rw [hs, he]
  dsimp only
  by_cases hA : (e.all_day && decide (0 < te.day - ts.day)) = true
  · rw [if_pos hA]
    have h0 : 0 < te.day - ts.day :=
      of_decide_eq_true ((Bool.and_eq_true _ _).mp hA).2
    exact ⟨te.day - ts.day, rfl, by omega⟩
  · rw [if_neg hA]
    exact ⟨max 1 (te.day - ts.day), rfl, le_max_left _ _⟩

theorem duration_clamped_at_least_one_witness :
    ∃ d : Int,
      getEventDurationDays
        ⟨RawDate.valid ⟨10, 0, 0, 0, 0⟩, RawDate.valid ⟨5, 0, 0, 0, 0⟩, false⟩
        ⟨0, 0, 0, 0, 0⟩ = some d ∧ 1 ≤ d :=
  duration_clamped_at_least_one _ _ ⟨10, 0, 0, 0, 0⟩ ⟨5, 0, 0, 0, 0⟩ rfl rfl
    (by decide)

theorem mvs_le_S (S T : Nat) (h : Rat) : maxVisibleSpanning S T h ≤ (S : Int) := by
  unfold maxVisibleSpanning
  split
  · exact le_refl _
  · exact min_le_left _ _

theorem mvs_nonneg (S T : Nat) (h : Rat) : 0 ≤ maxVisibleSpanning S T h := by
  unfold maxVisibleSpanning
  split
  · exact Int.natCast_nonneg S
  · exact le_min (Int.natCast_nonneg S) (le_trans one_pos.le (le_max_left _ _))

theorem vt_nonneg (S T : Nat) (h : Rat) : 0 ≤ visibleTimed S T h := by
  unfold visibleTimed
  exact le_min (Int.natCast_nonneg T) (le_max_left _ _)

theorem vt_le_T (S T : Nat) (h : Rat) : visibleTimed S T h ≤ (T : Int) := by
  unfold visibleTimed
  exact min_le_left _ _

/-- Claim C3 counterexample: with an available-space budget of 0 and 3
multi-day lanes touching a cell, the resolver shows 1 lane (not 0) and
reports hiddenCount 2 (not 3): the `Math.max(1, ...)` floor guarantees one
visible lane whenever any exists, even on a non-positive budget. -/
theorem overflow_zero_budget_counterexample :
    maxVisibleSpanning 3 0 0 = 1 ∧ hiddenCount 3 0 0 = 2
    ∧ maxVisibleSpanning 3 0 0 ≠ 0 ∧ hiddenCount 3 0 0 ≠ 3 := by
  have h1 : maxVisibleSpanning 3 0 0 = 1 := by
    unfold maxVisibleSpanning
    rw [if_neg (by norm_num), if_neg (by norm_num)]
    norm_num
  have h2 : hiddenCount 3 0 0 = 2 := by
    unfold hiddenCount visibleTimed
    rw [h1]
    norm_num
  exact ⟨h1, h2, by rw [h1]; norm_num, by rw [h2]; norm_num⟩

/-- Claim C3 amended: on a zero or negative budget the resolver still shows
exactly one lane when any lane exists (`min S 1`) and zero single-day
markers; the hidden count is the remaining `(S - min S 1) + T`, and the
"+X more" indicator is shown exactly when that count is positive. With a
budget of 0 and 3 lanes this means 1 shown and hiddenCount 2. -/
theorem overflow_nonpositive_budget (S T : Nat) (h : Rat) (hle : h ≤ 0) :
    maxVisibleSpanning S T h = min (S : Int) 1
    ∧ visibleTimed S T h = 0
    ∧ hiddenCount S T h = ((S : Int) - min (S : Int) 1) + (T : Int)
    ∧ (moreShown S T h = true ↔ 0 < ((S : Int) - min (S : Int) 1) + (T : Int)) := by
  have hmvs : maxVisibleSpanning S T h = min (S : Int) 1 := by
    unfold maxVisibleSpanning
    by_cases hfit : (S : Rat) * 22 + (T : Rat) * 18 ≤ h
    · rw [if_pos hfit]
      have hT : (0 : Rat) ≤ (T : Rat) := Nat.cast_nonneg T
      have hS : (0 : Rat) ≤ (S : Rat) := Nat.cast_nonneg S
      have hS0 : (S : Rat) = 0 := by nlinarith
      have : S = 0 := by exact_mod_cast hS0
      subst this
      norm_num
    · rw [if_neg hfit]
      have hr : (0 : Rat) ≤ (if 0 < T then (18 : Rat) else 0) := by
        split <;> norm_num
      have hflt : ⌊(h - 18 - (if 0 < T then (18 : Rat) else 0)) / 22⌋ < 1 := by
        rw [Int.floor_lt]
        rw [div_lt_iff (by norm_num : (0 : Rat) < 22)]
        push_cast
        linarith
      omega
  have hvt : visibleTimed S T h = 0 := by
    have h0 : (0 : Int) ≤ maxVisibleSpanning S T h := mvs_nonneg S T h
    refine le_antisymm ?_ (vt_nonneg S T h)
    unfold visibleTimed
    dsimp only
    set r : Rat := h - ((maxVisibleSpanning S T h : Int) : Rat) * 22
      - (if maxVisibleSpanning S T h < (S : Int) then (18 : Rat) else 0) with hrdef
    have hrle : r ≤ 0 := by
      have hc : (0 : Rat) ≤ ((maxVisibleSpanning S T h : Int) : Rat) := by
        exact_mod_cast h0
      rw [hrdef]
      split <;> nlinarith
    have hfl : ⌊r / 18⌋ ≤ 0 := by
      have hdiv : r / 18 ≤ 0 / 18 :=
        div_le_div_of_nonneg_right hrle (by norm_num)
      rw [zero_div] at hdiv
      calc ⌊r / 18⌋ ≤ ⌊(0 : Rat)⌋ := Int.floor_le_floor hdiv
        _ = 0 := Int.floor_zero
    have hT : (0 : Int) ≤ (T : Int) := Int.natCast_nonneg T
    omega
  have hS : (0 : Int) ≤ (S : Int) := Int.natCast_nonneg S
  have hT : (0 : Int) ≤ (T : Int) := Int.natCast_nonneg T
  have hhid : hiddenCount S T h = ((S : Int) - min (S : Int) 1) + (T : Int) := by
    unfold hiddenCount
    rw [hmvs, hvt]
    omega
  refine ⟨hmvs, hvt, hhid, ?_⟩
  unfold moreShown
  rw [hhid]
  simp

theorem overflow_nonpositive_budget_witness :
    maxVisibleSpanning 3 1 (-4) = min ((3 : Nat) : Int) 1
    ∧ visibleTimed 3 1 (-4) = 0
    ∧ hiddenCount 3 1 (-4) = (((3 : Nat) : Int) - min ((3 : Nat) : Int) 1) + ((1 : Nat) : Int)
    ∧ (moreShown 3 1 (-4) = true
        ↔ 0 < (((3 : Nat) : Int) - min ((3 : Nat) : Int) 1) + ((1 : Nat) : Int)) :=
  overflow_nonpositive_budget 3 1 (-4) (by norm_num)

theorem fit_values (S T : Nat) (h : Rat)
    (hfit : (S : Rat) * 22 + (T : Rat) * 18 ≤ h) :
    maxVisibleSpanning S T h = (S : Int) ∧ visibleTimed S T h = (T : Int) := by
  have hm : maxVisibleSpanning S T h = (S : Int) := by
    unfold maxVisibleSpanning
    rw [if_pos hfit]
  refine ⟨hm, ?_⟩
  unfold visibleTimed
  dsimp only
  rw [hm, if_neg (lt_irrefl _)]
  refine min_eq_left (le_trans ?_ (le_max_right _ _))
  rw [Int.le_floor, le_div_iff₀ (by norm_num : (0 : Rat) < 18)]
  push_cast
  linarith

theorem mvs_mono (S T : Nat) {h1 h2 : Rat} (hle : h1 ≤ h2) :
    maxVisibleSpanning S T h1 ≤ maxVisibleSpanning S T h2 := by
  by_cases hf2 : (S : Rat) * 22 + (T : Rat) * 18 ≤ h2
  · rw [(fit_values S T h2 hf2).1]
    exact mvs_le_S S T h1
  · have hf1 : ¬((S : Rat) * 22 + (T : Rat) * 18 ≤ h1) :=
      fun hc => hf2 (le_trans hc hle)
    unfold maxVisibleSpanning
    rw [if_neg hf1, if_neg hf2]
    refine min_le_min (le_refl _) (max_le_max (le_refl _) ?_)
    exact Int.floor_le_floor
      (div_le_div_of_nonneg_right (by linarith) (by norm_num))

/-- Claim C7: for a fixed layout (lane count `S` and marker count `T` in a
cell) the number of shown items (visible lanes plus visible markers) is
monotone in the available space budget: shrinking the budget never increases
it. -/
theorem overflow_monotone (S T : Nat) (h1 h2 : Rat) (hle : h1 ≤ h2) :
    shownCount S T h1 ≤ shownCount S T h2 := by
  unfold shownCount
  by_cases hf2 : (S : Rat) * 22 + (T : Rat) * 18 ≤ h2
  · obtain ⟨hm2, hv2⟩ := fit_values S T h2 hf2
    rw [hm2, hv2]
    have ha := mvs_le_S S T h1
    have hb := vt_le_T S T h1
    omega
  · have hf1 : ¬((S : Rat) * 22 + (T : Rat) * 18 ≤ h1) :=
      fun hc => hf2 (le_trans hc hle)
    have hs12 := mvs_mono S T hle
    by_cases hT : T = 0
    · subst hT
      have hv1 : visibleTimed S 0 h1 = 0 :=
        le_antisymm (vt_le_T S 0 h1) (vt_nonneg S 0 h1)
      have hv2 : visibleTimed S 0 h2 = 0 :=
        le_antisymm (vt_le_T S 0 h2) (vt_nonneg S 0 h2)
      rw [hv1, hv2]
      omega
    · have hTpos : 0 < T := Nat.pos_of_ne_zero hT
      have hT1 : (1 : Int) ≤ (T : Int) := by exact_mod_cast hTpos
      have hrT : (if 0 < T then (18 : Rat) else 0) = 18 := if_pos hTpos
      have hs1eq : maxVisibleSpanning S T h1
          = min (S : Int) (max 1 ⌊(h1 - 18 - (18 : Rat)) / 22⌋) := by
        unfold maxVisibleSpanning
        rw [if_neg hf1, hrT]
      have hs2eq : maxVisibleSpanning S T h2
          = min (S : Int) (max 1 ⌊(h2 - 18 - (18 : Rat)) / 22⌋) := by
        unfold maxVisibleSpanning
        rw [if_neg hf2, hrT]
      by_cases hss : maxVisibleSpanning S T h1 = maxVisibleSpanning S T h2
      · -- same lane count, same indicator term: timed part is floor-monotone
        have hvle : visibleTimed S T h1 ≤ visibleTimed S T h2 := by
          unfold visibleTimed
          dsimp only
          rw [hss]
          refine min_le_min (le_refl _) (max_le_max (le_refl _) ?_)
          exact Int.floor_le_floor
            (div_le_div_of_nonneg_right (by linarith) (by norm_num))
        omega
      · have hlt : maxVisibleSpanning S T h1 < maxVisibleSpanning S T h2 :=
          lt_of_le_of_ne hs12 hss
        have hS2le := mvs_le_S S T h2
        have hS1lt : maxVisibleSpanning S T h1 < (S : Int) :=
          lt_of_lt_of_le hlt hS2le
        -- integer structure of the two lane counts
        have ha1le : ⌊(h1 - 18 - (18 : Rat)) / 22⌋ ≤ maxVisibleSpanning S T h1 := by
          rw [hs1eq] at hS1lt ⊢
          omega
        have hs1ge1 : (1 : Int) ≤ maxVisibleSpanning S T h1 := by
          rw [hs1eq] at hS1lt ⊢
          omega
        have hs2lea2 : maxVisibleSpanning S T h2 ≤ ⌊(h2 - 18 - (18 : Rat)) / 22⌋ := by
          have h2ge : (2 : Int) ≤ maxVisibleSpanning S T h2 := by omega
          rw [hs2eq] at h2ge ⊢
          omega
        -- rational bounds from the floors
        have hq1 : h1 - 18 - 18 < 22 * (((⌊(h1 - 18 - (18 : Rat)) / 22⌋ : Int) : Rat) + 1) := by
          have hx := Int.lt_floor_add_one ((h1 - 18 - (18 : Rat)) / 22)
          rw [div_lt_iff₀ (by norm_num : (0 : Rat) < 22)] at hx
          linarith
        have hq2 : 22 * ((⌊(h2 - 18 - (18 : Rat)) / 22⌋ : Int) : Rat) ≤ h2 - 18 - 18 := by
          have hx := Int.floor_le ((h2 - 18 - (18 : Rat)) / 22)
          rw [le_div_iff₀ (by norm_num : (0 : Rat) < 22)] at hx
          linarith
        have ha1leQ : ((⌊(h1 - 18 - (18 : Rat)) / 22⌋ : Int) : Rat)
            ≤ ((maxVisibleSpanning S T h1 : Int) : Rat) := by
          exact_mod_cast ha1le
        have hs2lea2Q : ((maxVisibleSpanning S T h2 : Int) : Rat)
            ≤ ((⌊(h2 - 18 - (18 : Rat)) / 22⌋ : Int) : Rat) := by
          exact_mod_cast hs2lea2
        -- at most two timed markers fit beside the smaller lane count
        have hvt1le : visibleTimed S T h1 ≤ 2 := by
          unfold visibleTimed
          dsimp only
          rw [if_pos hS1lt]
          refine le_trans (min_le_right _ _) ?_
          have hfl : ⌊(h1 - ((maxVisibleSpanning S T h1 : Int) : Rat) * 22 - 18) / 18⌋ < 3 := by
            rw [Int.floor_lt, div_lt_iff₀ (by norm_num : (0 : Rat) < 18)]
            push_cast
            push_cast at hq1 ha1leQ
            linarith
          omega
        -- at least one timed marker fits beside the larger lane count
        have hvt2ge : (1 : Int) ≤ visibleTimed S T h2 := by
          unfold visibleTimed
          dsimp only
          refine le_min hT1 (le_trans ?_ (le_max_right 0 _))
          rw [Int.le_floor, le_div_iff₀ (by norm_num : (0 : Rat) < 18)]
          have hite : (if maxVisibleSpanning S T h2 < (S : Int) then (18 : Rat) else 0) ≤ 18 := by
            split <;> norm_num
          push_cast
          push_cast at hq2 hs2lea2Q
          linarith
        have hvt1n := vt_nonneg S T h1
        omega

theorem overflow_monotone_witness : shownCount 3 2 0 ≤ shownCount 3 2 100 :=
  overflow_monotone 3 2 0 100 (by norm_num)

theorem init_le_foldl_max (g : Seg → Nat) :
    ∀ (l : List Seg) (a : Nat), a ≤ l.foldl (fun acc s => max acc (g s)) a := by
  intro l
  induction l with
  | nil => intro a; exact le_refl a
  | cons b bs ih =>
    intro a
    exact le_trans (le_max_left a (g b)) (ih (max a (g b)))

theorem le_foldl_max (g : Seg → Nat) :
    ∀ (l : List Seg) (a : Nat) (x : Seg), x ∈ l →
      g x ≤ l.foldl (fun acc s => max acc (g s)) a := by
  intro l
  induction l with
  | nil => intro a x hx; cases hx
  | cons b bs ih =>
    intro a x hx
    rcases List.mem_cons.mp hx with h | h
    · subst h
      exact le_trans (le_max_right a (g x)) (init_le_foldl_max g bs (max a (g x)))
    · exact ih (max a (g b)) x h

/-- Claim C4 counterexample: in a grid row using exactly the global lanes
{0, 3}, the renderer places the lane-3 segment at pixel offset
26 + 3·22 = 92, not at the compacted position 26 + 1·22 = 48 that the claim
predicts, even though its row-local compacted index is 1 (and the per-cell
display-row count is 2): the vertical offset uses the global lane. -/
theorem compacted_offset_counterexample :
    exSegL0.eventRow = 0 ∧ exSegL3.eventRow = 3
    ∧ displayRowOf [exSegL0, exSegL3] exSegL3 = 1
    ∧ (createSpanningEvent exSegL3 (100 / 7) 100).topPx = 26 + 3 * 22
    ∧ (createSpanningEvent exSegL3 (100 / 7) 100).topPx ≠ 26 + 1 * 22
    ∧ cellDisplayRowCount [exSegL0, exSegL3] 7 3 = 2 := by
  refine ⟨rfl, rfl, by decide, ?_, ?_, by decide⟩
  · show ((exSegL3.gridRow : Rat) * 100 + 26 + (exSegL3.eventRow : Rat) * 22)
      = 26 + 3 * 22
    norm_num [exSegL3]
  · show ((exSegL3.gridRow : Rat) * 100 + 26 + (exSegL3.eventRow : Rat) * 22)
      ≠ 26 + 1 * 22
    norm_num [exSegL3]

/-- Claim C4 amended: the vertical offset of a rendered segment is
`gridRow · cellHeight + 26 + eventRow · 22` with the GLOBAL lane `eventRow`
(the renderer applies no per-week compaction; the global lane also fixes the
z-order `100 - eventRow`). The row-local compacted index only feeds the
per-cell display-row counts used for spacing and overflow budgeting: every
cell a segment covers needs at least `compactedIndex + 1` display rows. -/
theorem global_lane_vertical_offset (s : Seg) (cw ch : Rat)
    (multi : List Seg) (gridLen : Nat) (t : Seg) (ht : t ∈ multi)
    (c : Int) (hc : c ∈ segCells t) (hc0 : 0 ≤ c) (hlt : c.toNat < gridLen) :
    (createSpanningEvent s cw ch).topPx
      = (s.gridRow : Rat) * ch + 26 + (s.eventRow : Rat) * 22
    ∧ (createSpanningEvent s cw ch).zIndex = 100 - (s.eventRow : Int)
    ∧ displayRowOf multi t + 1 ≤ cellDisplayRowCount multi gridLen c.toNat := by
  refine ⟨rfl, rfl, ?_⟩
  unfold cellDisplayRowCount
  rw [if_pos hlt]
  refine le_foldl_max (fun s => displayRowOf multi s + 1) _ 0 t ?_
  rw [List.mem_filter]
  refine ⟨ht, ?_⟩
  rw [Int.toNat_of_nonneg hc0]
  exact decide_eq_true hc

theorem global_lane_vertical_offset_witness :
    (createSpanningEvent exSegL3 (100 / 7) 100).topPx
      = (exSegL3.gridRow : Rat) * 100 + 26 + (exSegL3.eventRow : Rat) * 22
    ∧ (createSpanningEvent exSegL3 (100 / 7) 100).zIndex
      = 100 - (exSegL3.eventRow : Int)
    ∧ displayRowOf [exSegL0, exSegL3] exSegL3 + 1
      ≤ cellDisplayRowCount [exSegL0, exSegL3] 7 (4 : Int).toNat :=
  global_lane_vertical_offset exSegL3 (100 / 7) 100 [exSegL0, exSegL3] 7 exSegL3
    (by decide) 4 (by decide) (by decide) (by decide)

theorem foldl_preserve_mem {σ α : Type _} (P : σ → Prop) (Q : α → Prop)
    (f : σ → α → σ) (hstep : ∀ s a, Q a → P s → P (f s a)) :
    ∀ (l : List α), (∀ a ∈ l, Q a) → ∀ s, P s → P (l.foldl f s) := by
  intro l
  induction l with
  | nil => intro _ s hs; exact hs
  | cons a as ih =>
    intro hl s hs
    exact ih (fun x hx => hl x (List.mem_cons_of_mem a hx)) _
      (hstep s a (hl a (List.mem_cons_self a as)) hs)

theorem mem_buildSegs {e : Event} {p : EventPlacement} {r : Nat} {s : Seg}
    (hs : s ∈ buildSegs e p r) : s.ev = e ∧ s.eventRow = r := by
  unfold buildSegs at hs
  rw [List.mem_filterMap] at hs
  obtain ⟨w, _, heq⟩ := hs
  dsimp only at heq
  split at heq
  · cases heq
  · cases heq
    exact ⟨rfl, rfl⟩

theorem processEvent_multi_mem (gridDates : List Int) (now : JsDateTime)
    (st : OrgState) (e : Event) {s : Seg}
    (hs : s ∈ (processEvent gridDates now st e).multi) :
    s ∈ st.multi
    ∨ (s.ev = e ∧ (isMultiDayEvent e now || e.all_day) = true
        ∧ ((placeEvent gridDates now e).startIndex.isSome
            || ((placeEvent gridDates now e).endIndex.isSome
                && (placeEvent gridDates now e).startIndex.isNone)) = true) := by
  unfold processEvent at hs
  by_cases h1 : (isMultiDayEvent e now || e.all_day) = true
  · rw [if_pos h1] at hs
    dsimp only at hs
    by_cases h2 : ((placeEvent gridDates now e).startIndex.isSome
        || ((placeEvent gridDates now e).endIndex.isSome
            && (placeEvent gridDates now e).startIndex.isNone)) = true
    · rw [if_pos h2] at hs
      split at hs
      · rw [List.mem_append] at hs
        rcases hs with h | h
        · exact Or.inl h
        · exact Or.inr ⟨(mem_buildSegs h).1, h1, h2⟩
      · rw [List.mem_append] at hs
        rcases hs with h | h
        · exact Or.inl h
        · exact Or.inr ⟨(mem_buildSegs h).1, h1, h2⟩
    · rw [if_neg h2] at hs
      exact Or.inl hs
  · rw [if_neg h1] at hs
    exact Or.inl hs

/-- Every emitted segment belongs to an event that passed both the
multi-day/all-day test and the start-or-end-in-grid test. -/
theorem multi_seg_origin (events : List Event) (gridDates : List Int)
    (now : JsDateTime) :
    ∀ s ∈ (organizeEventsForGrid events gridDates now).multi,
      (isMultiDayEvent s.ev now || s.ev.all_day) = true
      ∧ ((placeEvent gridDates now s.ev).startIndex.isSome
          || ((placeEvent gridDates now s.ev).endIndex.isSome
              && (placeEvent gridDates now s.ev).startIndex.isNone)) = true := by
  unfold organizeEventsForGrid
  refine foldl_preserve_mem
    (fun (st : OrgState) => ∀ s ∈ st.multi,
      (isMultiDayEvent s.ev now || s.ev.all_day) = true
      ∧ ((placeEvent gridDates now s.ev).startIndex.isSome
          || ((placeEvent gridDates now s.ev).endIndex.isSome
              && (placeEvent gridDates now s.ev).startIndex.isNone)) = true)
    (fun _ => True) _ ?_ _ (fun _ _ => trivial) _ ?_
  · intro st e _ hinv s hs
    rcases processEvent_multi_mem gridDates now st e hs with h | ⟨hev, h1, h2⟩
    · exact hinv s h
    · rw [hev]
      exact ⟨h1, h2⟩
  · intro s hs
    cases hs

theorem mem_bucketPush {single : List (Int × List Event)} {k : Option Int}
    {e : Event} {p : Int × List Event} (hp : p ∈ bucketPush single k e) :
    p ∈ single
    ∨ ∃ q ∈ single, p.1 = q.1 ∧ p.2 = q.2 ++ [e] ∧ k = some p.1 := by
  unfold bucketPush at hp
  cases k with
  | none => exact Or.inl hp
  | some key =>
    dsimp only at hp
    split at hp
    · rw [List.mem_map] at hp
      obtain ⟨q, hq, heq⟩ := hp
      split at heq
      · rename_i hqk
        refine Or.inr ⟨q, hq, ?_, ?_, ?_⟩
        · rw [← heq]
        · rw [← heq]
        · rw [← heq, hqk]
      · exact Or.inl (heq ▸ hq)
    · exact Or.inl hp

theorem processEvent_single_mem (gridDates : List Int) (now : JsDateTime)
    (st : OrgState) (e : Event) {p : Int × List Event}
    (hp : p ∈ (processEvent gridDates now st e).single) :
    p ∈ st.single
    ∨ ((isMultiDayEvent e now || e.all_day) = false
        ∧ ∃ q ∈ st.single, p.1 = q.1 ∧ p.2 = q.2 ++ [e]
            ∧ getDateKeyO (parseEventDate e.start now) = some p.1) := by
  unfold processEvent at hp
  by_cases h1 : (isMultiDayEvent e now || e.all_day) = true
  · rw [if_pos h1] at hp
    dsimp only at hp
    split at hp
    · split at hp
      · exact Or.inl hp
      · exact Or.inl hp
    · exact Or.inl hp
  · rw [if_neg h1] at hp
    dsimp only at hp
    rcases mem_bucketPush hp with h | ⟨q, hq, h⟩
    · exact Or.inl h
    · exact Or.inr ⟨Bool.eq_false_iff.mpr (fun hc => h1 hc), q, hq, h⟩

/-- Every bucket of the output keyed map was created for a grid date, and
every event in a bucket is a non-multi-day, non-all-day event whose start
date key equals the bucket key. -/
theorem single_bucket_origin (events : List Event) (gridDates : List Int)
    (now : JsDateTime) :
    ∀ p ∈ (organizeEventsForGrid events gridDates now).single,
      p.1 ∈ gridDates
      ∧ ∀ e ∈ p.2,
          getDateKeyO (parseEventDate e.start now) = some p.1
          ∧ (isMultiDayEvent e now || e.all_day) = false := by
  unfold organizeEventsForGrid
  have hinit : ∀ p ∈ (initOrgState gridDates).single,
      p.1 ∈ gridDates
      ∧ ∀ e ∈ p.2,
          getDateKeyO (parseEventDate e.start now) = some p.1
          ∧ (isMultiDayEvent e now || e.all_day) = false := by
    unfold initOrgState
    dsimp only
    refine foldl_preserve_mem
      (fun (acc : List (Int × List Event)) => ∀ p ∈ acc,
        p.1 ∈ gridDates
        ∧ ∀ e ∈ p.2,
            getDateKeyO (parseEventDate e.start now) = some p.1
            ∧ (isMultiDayEvent e now || e.all_day) = false)
      (fun d => d ∈ gridDates) _ ?_ _ (fun a ha => ha) _ ?_
    · intro acc d hd hinv p hp
      split at hp
      · exact hinv p hp
      · rw [List.mem_append] at hp
        rcases hp with h | h
        · exact hinv p h
        · rw [List.mem_singleton] at h
          subst h
          exact ⟨hd, fun e he => absurd he (List.not_mem_nil e)⟩
    · intro p hp
      cases hp
  refine foldl_preserve_mem
    (fun (st : OrgState) => ∀ p ∈ st.single,
      p.1 ∈ gridDates
      ∧ ∀ e ∈ p.2,
          getDateKeyO (parseEventDate e.start now) = some p.1
          ∧ (isMultiDayEvent e now || e.all_day) = false)
    (fun _ => True) _ ?_ _ (fun _ _ => trivial) _ hinit
  intro st e _ hinv p hp
  rcases processEvent_single_mem gridDates now st e hp with h | ⟨hcls, q, hq, hq1, hq2, hkey⟩
  · exact hinv p h
  · refine ⟨hq1 ▸ (hinv q hq).1, ?_⟩
    intro x hx
    rw [hq2, List.mem_append] at hx
    rcases hx with h | h
    · have hxq := (hinv q hq).2 x h
      rw [hq1]
      exact hxq
    · rw [List.mem_singleton] at h
      subst h
      exact ⟨hkey, hcls⟩

/-- Claim C2 counterexample: the all-day event 2025-12-01 .. 2026-03-01 fully
covers the (non-empty) January 2026 grid, is classified multi-day, yet
`organizeEventsForGrid` emits NO segments for it, because neither its start
key nor its end key lands on a grid date: the render condition requires one
of them to. -/
theorem covering_event_no_segments_counterexample :
    exGridJan.all (fun g =>
      decide (mkDay 2025 11 1 ≤ g) && decide (g ≤ mkDay 2026 2 1)) = true
    ∧ exGridJan ≠ []
    ∧ (isMultiDayEvent exCoverEvent exNow || exCoverEvent.all_day) = true
    ∧ (organizeEventsForGrid [exCoverEvent] exGridJan exNow).multi = [] := by
  refine ⟨by decide, by decide, by decide, by decide⟩

/-- Claim C2 amended: an event whose start date key and adjusted end date key
both resolve to no grid cell produces no segments, even when its interval
fully covers the grid; a segment is only ever emitted for an event whose
start or adjusted end lands on a grid date. Events with no overlap with the
grid in particular produce no segments. -/
theorem outside_grid_event_no_segments (events : List Event)
    (gridDates : List Int) (now : JsDateTime) (e : Event)
    (hs : (placeEvent gridDates now e).startIndex = none)
    (he : (placeEvent gridDates now e).endIndex = none) :
    (∀ s ∈ (organizeEventsForGrid events gridDates now).multi, s.ev ≠ e)
    ∧ ∀ s ∈ (organizeEventsForGrid events gridDates now).multi,
        ((placeEvent gridDates now s.ev).startIndex.isSome
          || (placeEvent gridDates now s.ev).endIndex.isSome) = true := by
  constructor
  · intro s hsm hse
    have h := (multi_seg_origin events gridDates now s hsm).2
    rw [hse, hs, he] at h
    cases h
  · intro s hsm
    have h := (multi_seg_origin events gridDates now s hsm).2
    cases hss : (placeEvent gridDates now s.ev).startIndex <;>
      cases hes : (placeEvent gridDates now s.ev).endIndex <;>
      rw [hss, hes] at h <;> simp_all

theorem outside_grid_event_no_segments_witness :
    (∀ s ∈ (organizeEventsForGrid [exCoverEvent] exGridJan exNow).multi,
      s.ev ≠ exCoverEvent)
    ∧ ∀ s ∈ (organizeEventsForGrid [exCoverEvent] exGridJan exNow).multi,
        ((placeEvent exGridJan exNow s.ev).startIndex.isSome
          || (placeEvent exGridJan exNow s.ev).endIndex.isSome) = true :=
  outside_grid_event_no_segments [exCoverEvent] exGridJan exNow exCoverEvent
    (by decide) (by decide)

/-- Claim C9 counterexample: an UNPARSEABLE (non-empty) date does not degrade
to the current instant: `parseEventDate` yields an invalid date, and an event
with such a start date is not placed anywhere — with the grid containing the
current day, the bucket the claim predicts stays empty and no segment is
emitted — though nothing raises. -/
theorem parse_invalid_counterexample :
    parseEventDate RawDate.invalid exNow ≠ some exNow
    ∧ parseEventDate RawDate.invalid exNow = none
    ∧ exNow.day = 0
    ∧ (organizeEventsForGrid [exBadEvent] [(0 : Int)] exNow).single = [(0, [])]
    ∧ (organizeEventsForGrid [exBadEvent] [(0 : Int)] exNow).multi = [] := by
  refine ⟨by decide, rfl, rfl, by decide, by decide⟩

/-- Claim C9 amended: a missing (null/empty) date degrades to the current
instant, but a non-empty unparseable date yields an invalid (NaN) date, not
the current instant; the pipeline still never raises — an event with an
unparseable start that is not all-day is classified as not multi-day and its
NaN date key matches no bucket, so it is silently dropped from both outputs. -/
theorem parse_fallback_amended (events : List Event) (gridDates : List Int)
    (now : JsDateTime) (e : Event)
    (hstart : e.start = RawDate.invalid) (hall : e.all_day = false) :
    parseEventDate RawDate.missing now = some now
    ∧ parseEventDate RawDate.invalid now = none
    ∧ (∀ s ∈ (organizeEventsForGrid events gridDates now).multi, s.ev ≠ e)
    ∧ (∀ p ∈ (organizeEventsForGrid events gridDates now).single, e ∉ p.2) := by
  have hmd : isMultiDayEvent e now = false := by
    cases hp : parseEventDate e.end_ now <;>
      simp [isMultiDayEvent, getEventDurationDays, hstart, hp, parseEventDate]
  refine ⟨rfl, rfl, ?_, ?_⟩
  · intro s hsm hse
    have h := (multi_seg_origin events gridDates now s hsm).1
    rw [hse, hmd, hall] at h
    cases h
  · intro p hp he
    have h := ((single_bucket_origin events gridDates now p hp).2 e he).1
    rw [hstart] at h
    cases h

theorem parse_fallback_amended_witness :
    parseEventDate RawDate.missing exNow = some exNow
    ∧ parseEventDate RawDate.invalid exNow = none
    ∧ (∀ s ∈ (organizeEventsForGrid [exBadEvent] [(0 : Int)] exNow).multi,
        s.ev ≠ exBadEvent)
    ∧ (∀ p ∈ (organizeEventsForGrid [exBadEvent] [(0 : Int)] exNow).single,
        exBadEvent ∉ p.2) :=
  parse_fallback_amended [exBadEvent] [(0 : Int)] exNow exBadEvent rfl rfl

/-- Claim C10: an event classified as single-day (not multi-day, not all-day)
whose start date key matches no grid date is silently dropped: it appears in
no single-day bucket (buckets exist only for grid dates) and in no multi-day
segment. -/
theorem single_day_outside_grid_dropped (events : List Event)
    (gridDates : List Int) (now : JsDateTime) (e : Event)
    (hclass : (isMultiDayEvent e now || e.all_day) = false)
    (hkey : (getDateKeyO (parseEventDate e.start now)).all
        (fun k => !(decide (k ∈ gridDates))) = true) :
    (∀ s ∈ (organizeEventsForGrid events gridDates now).multi, s.ev ≠ e)
    ∧ (∀ p ∈ (organizeEventsForGrid events gridDates now).single, e ∉ p.2) := by
  constructor
  · intro s hsm hse
    have h := (multi_seg_origin events gridDates now s hsm).1
    rw [hse, hclass] at h
    cases h
  · intro p hp he
    obtain ⟨hpg, hpe⟩ := single_bucket_origin events gridDates now p hp
    have hk := (hpe e he).1
    rw [hk] at hkey
    have : (!(decide (p.1 ∈ gridDates))) = true := hkey
    simp at this
    exact this hpg

theorem single_day_outside_grid_dropped_witness :
    (∀ s ∈ (organizeEventsForGrid [exFarEvent] exGrid7 exNow).multi,
      s.ev ≠ exFarEvent)
    ∧ (∀ p ∈ (organizeEventsForGrid [exFarEvent] exGrid7 exNow).single,
        exFarEvent ∉ p.2) :=
  single_day_outside_grid_dropped [exFarEvent] exGrid7 exNow exFarEvent
    (by decide) (by decide)

theorem getRow_set_self :
    ∀ (occ : List (List Int)) (r : Nat) (v : List Int), r < occ.length →
      getRow (occ.set r v) r = v := by
  intro occ
  induction occ with
  | nil => intro r v h; exact absurd h (Nat.not_lt_zero r)
  | cons a as ih =>
    intro r v h
    cases r with
    | zero => rfl
    | succ n => exact ih n v (Nat.lt_of_succ_lt_succ h)

theorem getRow_set_ne :
    ∀ (occ : List (List Int)) (r r2 : Nat) (v : List Int), r2 ≠ r →
      getRow (occ.set r v) r2 = getRow occ r2 := by
  intro occ
  induction occ with
  | nil => intro r r2 v _; rfl
  | cons a as ih =>
    intro r r2 v hne
    cases r with
    | zero =>
      cases r2 with
      | zero => exact absurd rfl hne
      | succ m => rfl
    | succ n =>
      cases r2 with
      | zero => rfl
      | succ m => exact ih n m v (fun hc => hne (by rw [hc]))

theorem getRow_append_lt :
    ∀ (occ tail : List (List Int)) (r : Nat), r < occ.length →
      getRow (occ ++ tail) r = getRow occ r := by
  intro occ
  induction occ with
  | nil => intro tail r h; exact absurd h (Nat.not_lt_zero r)
  | cons a as ih =>
    intro tail r h
    cases r with
    | zero => rfl
    | succ n => exact ih tail n (Nat.lt_of_succ_lt_succ h)

theorem getRow_append_len (occ : List (List Int)) (v : List Int) :
    getRow (occ ++ [v]) occ.length = v := by
  induction occ with
  | nil => rfl
  | cons a as ih => exact ih

theorem markRow_length (occ : List (List Int)) (r : Nat) (cells : List Int) :
    (markRow occ r cells).length = occ.length := by
  unfold markRow
  exact List.length_set occ r _

theorem getRow_markRow_self (occ : List (List Int)) (r : Nat) (cells : List Int)
    (h : r < occ.length) :
    getRow (markRow occ r cells) r = cells ++ getRow occ r := by
  unfold markRow
  exact getRow_set_self occ r _ h

theorem getRow_markRow_ne (occ : List (List Int)) (r r2 : Nat) (cells : List Int)
    (hne : r2 ≠ r) :
    getRow (markRow occ r cells) r2 = getRow occ r2 := by
  unfold markRow
  exact getRow_set_ne occ r r2 _ hne

theorem getRow_out :
    ∀ (occ : List (List Int)) (i : Nat), occ.length ≤ i → getRow occ i = [] := by
  intro occ
  induction occ with
  | nil => intro i _; rfl
  | cons a as ih =>
    intro i h
    cases i with
    | zero => exact absurd h (by simp)
    | succ n => exact ih n (Nat.le_of_succ_le_succ h)

theorem mem_getRow_markRow (occ : List (List Int)) (r : Nat) (cells : List Int)
    (i : Nat) (c : Int) (hc : c ∈ getRow occ i) :
    c ∈ getRow (markRow occ r cells) i := by
  by_cases h : i = r
  · subst h
    by_cases hlen : i < occ.length
    · rw [getRow_markRow_self occ i cells hlen]
      exact List.mem_append_right _ hc
    · rw [getRow_out occ i (Nat.le_of_not_lt hlen)] at hc
      cases hc
  · rw [getRow_markRow_ne occ r i cells h]
    exact hc

theorem findRow_lt :
    ∀ (occ : List (List Int)) (cells : List Int) (r : Nat),
      findRow occ cells = some r → r < occ.length := by
  intro occ
  induction occ with
  | nil => intro cells r h; simp [findRow] at h
  | cons row rest ih =>
    intro cells r h
    unfold findRow at h
    split at h
    · cases h
      simp
    · rw [Option.map_eq_some'] at h
      obtain ⟨i, hi, hr⟩ := h
      subst hr
      exact Nat.succ_lt_succ (ih cells i hi)

theorem findRow_free :
    ∀ (occ : List (List Int)) (cells : List Int) (r : Nat),
      findRow occ cells = some r → ∀ c ∈ cells, c ∉ getRow occ r := by
  intro occ
  induction occ with
  | nil => intro cells r h; simp [findRow] at h
  | cons row rest ih =>
    intro cells r h c hc
    unfold findRow at h
    split at h
    · rename_i hall
      cases h
      have hb := List.all_eq_true.mp hall c hc
      simp only [Bool.not_eq_true', decide_eq_false_iff_not] at hb
      exact hb
    · rw [Option.map_eq_some'] at h
      obtain ⟨i, hi, hr⟩ := h
      subst hr
      exact ih cells i hi c hc

theorem findRow_eq_specFirstFreeLane :
    ∀ (occ : List (List Int)) (cells : List Int),
      findRow occ cells = specFirstFreeLane occ cells := by
  intro occ
  induction occ with
  | nil => intro cells; rfl
  | cons row rest ih =>
    intro cells
    unfold findRow specFirstFreeLane
    rw [List.length_cons, List.range_succ_eq_map, List.find?_cons]
    have hcomp : ((fun r => cells.all fun c => !decide (c ∈ (row :: rest).getD r []))
        ∘ Nat.succ) = fun r => cells.all fun c => !decide (c ∈ rest.getD r []) := by
      funext r
      simp only [Function.comp_apply, List.getD_cons_succ]
    have ih2 : (List.range rest.length).find?
        (fun r => cells.all fun c => !decide (c ∈ rest.getD r [])) = findRow rest cells :=
      (ih cells).symm
    rw [List.find?_map, hcomp, ih2]
    have hsucc : (Nat.succ : Nat → Nat) = fun i => i + 1 := funext fun i => rfl
    rw [hsucc]
    by_cases hall : cells.all (fun c => !(decide (c ∈ row))) = true
    · have hB : (cells.all fun c => !decide (c ∈ (row :: rest).getD 0 [])) = true := by
        simpa only [List.getD_cons_zero] using hall
      rw [if_pos hall, hB]
    · have hB : (cells.all fun c => !decide (c ∈ (row :: rest).getD 0 [])) = false := by
        rw [Bool.not_eq_true] at hall
        simpa only [List.getD_cons_zero] using hall
      rw [if_neg hall, hB]

theorem processEvent_occ_inv (gridDates : List Int) (now : JsDateTime)
    (st : OrgState) (e : Event)
    (ha : ∀ s ∈ st.multi, s.eventRow < st.occ.length
        ∧ ∀ c ∈ occCellsOfEvent gridDates now s.ev, c ∈ getRow st.occ s.eventRow)
    (hp : ∀ s1 ∈ st.multi, ∀ s2 ∈ st.multi, s1.ev ≠ s2.ev →
        ∀ c, c ∈ occCellsOfEvent gridDates now s1.ev →
          c ∈ occCellsOfEvent gridDates now s2.ev → s1.eventRow ≠ s2.eventRow) :
    (∀ s ∈ (processEvent gridDates now st e).multi,
        s.eventRow < (processEvent gridDates now st e).occ.length
        ∧ ∀ c ∈ occCellsOfEvent gridDates now s.ev,
            c ∈ getRow (processEvent gridDates now st e).occ s.eventRow)
    ∧ (∀ s1 ∈ (processEvent gridDates now st e).multi,
        ∀ s2 ∈ (processEvent gridDates now st e).multi, s1.ev ≠ s2.ev →
          ∀ c, c ∈ occCellsOfEvent gridDates now s1.ev →
            c ∈ occCellsOfEvent gridDates now s2.ev →
            s1.eventRow ≠ s2.eventRow) := by
  unfold processEvent
  by_cases h1 : (isMultiDayEvent e now || e.all_day) = true
  · rw [if_pos h1]
    dsimp only
    by_cases h2 : ((placeEvent gridDates now e).startIndex.isSome
        || ((placeEvent gridDates now e).endIndex.isSome
            && (placeEvent gridDates now e).startIndex.isNone)) = true
    · rw [if_pos h2]
      cases hfr : findRow st.occ (placeEvent gridDates now e).cells with
      | some r =>
        dsimp only
        have hrlt : r < st.occ.length := findRow_lt _ _ _ hfr
        have hfree : ∀ c ∈ (placeEvent gridDates now e).cells,
            c ∉ getRow st.occ r := findRow_free _ _ _ hfr
        have hcells : occCellsOfEvent gridDates now e
            = (placeEvent gridDates now e).cells := rfl
        constructor
        · intro s hs
          rw [List.mem_append] at hs
          rcases hs with hold | hnew
          · obtain ⟨hl, hm⟩ := ha s hold
            refine ⟨by rw [markRow_length]; exact hl, ?_⟩
            intro c hc
            exact mem_getRow_markRow _ _ _ _ _ (hm c hc)
          · obtain ⟨hev, hrow⟩ := mem_buildSegs hnew
            refine ⟨by rw [markRow_length, hrow]; exact hrlt, ?_⟩
            intro c hc
            rw [hrow, getRow_markRow_self _ _ _ hrlt]
            refine List.mem_append_left _ ?_
            rw [hev, hcells] at hc
            exact hc
        · intro s1 hs1 s2 hs2 hne c hc1 hc2
          rw [List.mem_append] at hs1 hs2
          rcases hs1 with ho1 | hn1 <;> rcases hs2 with ho2 | hn2
          · exact hp s1 ho1 s2 ho2 hne c hc1 hc2
          · obtain ⟨hev2, hrow2⟩ := mem_buildSegs hn2
            rw [hrow2]
            intro hcon
            have hmem := (ha s1 ho1).2 c hc1
            rw [hcon] at hmem
            rw [hev2, hcells] at hc2
            exact hfree c hc2 hmem
          · obtain ⟨hev1, hrow1⟩ := mem_buildSegs hn1
            rw [hrow1]
            intro hcon
            have hmem := (ha s2 ho2).2 c hc2
            rw [← hcon] at hmem
            rw [hev1, hcells] at hc1
            exact hfree c hc1 hmem
          · obtain ⟨hev1, _⟩ := mem_buildSegs hn1
            obtain ⟨hev2, _⟩ := mem_buildSegs hn2
            exact absurd (hev1.trans hev2.symm) hne
      | none =>
        dsimp only
        have hlen : (markRow (st.occ ++ [[]]) st.occ.length
            (placeEvent gridDates now e).cells).length = st.occ.length + 1 := by
          rw [markRow_length, List.length_append]
          rfl
        have hlenlt : st.occ.length < (st.occ ++ [[]]).length := by
          rw [List.length_append]
          simp
        have hgetlt : ∀ i, i < st.occ.length →
            getRow (markRow (st.occ ++ [[]]) st.occ.length
              (placeEvent gridDates now e).cells) i = getRow st.occ i := by
          intro i hi
          rw [getRow_markRow_ne _ _ _ _ (Nat.ne_of_lt hi), getRow_append_lt _ _ _ hi]
        have hgetlen : getRow (markRow (st.occ ++ [[]]) st.occ.length
            (placeEvent gridDates now e).cells) st.occ.length
            = (placeEvent gridDates now e).cells ++ [] := by
          rw [getRow_markRow_self _ _ _ hlenlt, getRow_append_len]
        have hcells : occCellsOfEvent gridDates now e
            = (placeEvent gridDates now e).cells := rfl
        constructor
        · intro s hs
          rw [List.mem_append] at hs
          rcases hs with hold | hnew
          · obtain ⟨hl, hm⟩ := ha s hold
            refine ⟨by rw [hlen]; exact Nat.lt_succ_of_lt hl, ?_⟩
            intro c hc
            rw [hgetlt s.eventRow hl]
            exact hm c hc
          · obtain ⟨hev, hrow⟩ := mem_buildSegs hnew
            refine ⟨by rw [hlen, hrow]; exact Nat.lt_succ_self _, ?_⟩
            intro c hc
            rw [hrow, hgetlen]
            refine List.mem_append_left _ ?_
            rw [hev, hcells] at hc
            exact hc
        · intro s1 hs1 s2 hs2 hne c hc1 hc2
          rw [List.mem_append] at hs1 hs2
          rcases hs1 with ho1 | hn1 <;> rcases hs2 with ho2 | hn2
          · exact hp s1 ho1 s2 ho2 hne c hc1 hc2
          · obtain ⟨_, hrow2⟩ := mem_buildSegs hn2
            rw [hrow2]
            exact Nat.ne_of_lt (ha s1 ho1).1
          · obtain ⟨_, hrow1⟩ := mem_buildSegs hn1
            rw [hrow1]
            exact (Nat.ne_of_lt (ha s2 ho2).1).symm
          · obtain ⟨hev1, _⟩ := mem_buildSegs hn1
            obtain ⟨hev2, _⟩ := mem_buildSegs hn2
            exact absurd (hev1.trans hev2.symm) hne
    · rw [if_neg h2]
      exact ⟨ha, hp⟩
  · rw [if_neg h1]
    dsimp only
    exact ⟨ha, hp⟩

/-- The occupancy invariant of the whole pipeline: every segment sits on a
lane within the occupancy table with all its event cells claimed there, and
segments of cell-sharing distinct events sit on distinct lanes. -/
theorem org_occ_inv (events : List Event) (gridDates : List Int)
    (now : JsDateTime) :
    (∀ s ∈ (organizeEventsForGrid events gridDates now).multi,
        s.eventRow < (organizeEventsForGrid events gridDates now).occ.length
        ∧ ∀ c ∈ occCellsOfEvent gridDates now s.ev,
            c ∈ getRow (organizeEventsForGrid events gridDates now).occ s.eventRow)
    ∧ (∀ s1 ∈ (organizeEventsForGrid events gridDates now).multi,
        ∀ s2 ∈ (organizeEventsForGrid events gridDates now).multi, s1.ev ≠ s2.ev →
          ∀ c, c ∈ occCellsOfEvent gridDates now s1.ev →
            c ∈ occCellsOfEvent gridDates now s2.ev →
            s1.eventRow ≠ s2.eventRow) := by
  unfold organizeEventsForGrid
  refine foldl_preserve_mem
    (fun (st : OrgState) =>
      (∀ s ∈ st.multi, s.eventRow < st.occ.length
        ∧ ∀ c ∈ occCellsOfEvent gridDates now s.ev, c ∈ getRow st.occ s.eventRow)
      ∧ (∀ s1 ∈ st.multi, ∀ s2 ∈ st.multi, s1.ev ≠ s2.ev →
          ∀ c, c ∈ occCellsOfEvent gridDates now s1.ev →
            c ∈ occCellsOfEvent gridDates now s2.ev → s1.eventRow ≠ s2.eventRow))
    (fun _ => True) _ ?_ _ (fun _ _ => trivial) _ ?_
  · intro st e _ hinv
    exact processEvent_occ_inv gridDates now st e hinv.1 hinv.2
  · constructor
    · intro s hs
      simp [initOrgState] at hs
    · intro s1 hs1
      simp [initOrgState] at hs1

theorem processEvent_new_rows (gridDates : List Int) (now : JsDateTime)
    (st : OrgState) (e : Event) {t : Seg}
    (ht : t ∈ (processEvent gridDates now st e).multi) (hn : t ∉ st.multi) :
    t.eventRow = (match findRow st.occ (placeEvent gridDates now e).cells with
      | some r => r
      | none => st.occ.length) := by
  unfold processEvent at ht
  by_cases h1 : (isMultiDayEvent e now || e.all_day) = true
  · rw [if_pos h1] at ht
    dsimp only at ht
    by_cases h2 : ((placeEvent gridDates now e).startIndex.isSome
        || ((placeEvent gridDates now e).endIndex.isSome
            && (placeEvent gridDates now e).startIndex.isNone)) = true
    · rw [if_pos h2] at ht
      cases hfr : findRow st.occ (placeEvent gridDates now e).cells with
      | some r =>
        rw [hfr] at ht
        dsimp only at ht
        rw [List.mem_append] at ht
        rcases ht with h | h
        · exact absurd h hn
        · exact (mem_buildSegs h).2
      | none =>
        rw [hfr] at ht
        dsimp only at ht
        rw [List.mem_append] at ht
        rcases ht with h | h
        · exact absurd h hn
        · exact (mem_buildSegs h).2
    · rw [if_neg h2] at ht
      exact absurd ht hn
  · rw [if_neg h1] at ht
    dsimp only at ht
    exact absurd ht hn

/-- Claim C1: lane assignment is overlap-free. Two output segments of
distinct events whose occupied cell sets share a cell carry distinct lanes
(`eventRow`). Moreover `findRow` picks exactly the first (lowest) occupancy
row whose claimed cell set is disjoint from the event cells (it equals the
spec-modelled `specFirstFreeLane`), and all segments emitted for one
processed event carry one single lane. Events are processed in the order of
the embedded stable ascending start-date sort. -/
theorem lane_assignment_overlap_free (events : List Event)
    (gridDates : List Int) (now : JsDateTime) (s1 s2 : Seg)
    (h1 : s1 ∈ (organizeEventsForGrid events gridDates now).multi)
    (h2 : s2 ∈ (organizeEventsForGrid events gridDates now).multi)
    (hne : s1.ev ≠ s2.ev) (c : Int)
    (hc1 : c ∈ occCellsOfEvent gridDates now s1.ev)
    (hc2 : c ∈ occCellsOfEvent gridDates now s2.ev) :
    s1.eventRow ≠ s2.eventRow
    ∧ (∀ (occ : List (List Int)) (cells : List Int),
        findRow occ cells = specFirstFreeLane occ cells)
    ∧ (∀ (st : OrgState) (e : Event) (t1 t2 : Seg),
        t1 ∈ (processEvent gridDates now st e).multi → t1 ∉ st.multi →
        t2 ∈ (processEvent gridDates now st e).multi → t2 ∉ st.multi →
        t1.eventRow = t2.eventRow) := by
  refine ⟨?_, findRow_eq_specFirstFreeLane, ?_⟩
  · exact (org_occ_inv events gridDates now).2 s1 h1 s2 h2 hne c hc1 hc2
  · intro st e t1 t2 ht1 hn1 ht2 hn2
    rw [processEvent_new_rows gridDates now st e ht1 hn1,
      processEvent_new_rows gridDates now st e ht2 hn2]

theorem lane_assignment_overlap_free_witness :
    (⟨exEvA, 0, 0, 3, 0, false, false⟩ : Seg).eventRow
      ≠ (⟨exEvB, 2, 0, 3, 1, false, false⟩ : Seg).eventRow :=
  (lane_assignment_overlap_free [exEvA, exEvB] exGrid7 exNow
    ⟨exEvA, 0, 0, 3, 0, false, false⟩ ⟨exEvB, 2, 0, 3, 1, false, false⟩
    (by decide) (by decide) (by decide) 2 (by decide) (by decide)).1
